import Mathlib

/-!
Shallow embedding of the bounded message channel in src/channel.hpp
(template class chan::channel<Ts...>).

Modelling choices:
* the message tuple type is abstracted to a type parameter α;
* the channel state is the record of the mutable fields: the FIFO queue
  (front at the list head), the two state flags, the overflow counter and
  the fixed buffer size;
* `dropped_count_` is `Option Nat`: the source constructor leaves the
  member uninitialized, which we model as `none`; every successful send
  stores `some d`;
* size_t arithmetic on line 100 (`d = queue.size() - buffer_size`) is
  modelled with explicit wrap-around modulo 2^64 (`usub64`);
* the two condition-variable waits are modelled by their guard (the
  condition under which `cv.wait` is entered) and their wake predicate
  (the lambda passed to `cv.wait`).  `send`/`recv` return `none` when the
  wait is entered while the predicate is false: in a single-threaded run
  the call then suspends and never returns.  `sendCore`/`recvCore` are the
  bodies after the wait resolves.
-/

namespace ChanModel

/-- Width of size_t on the reference platform. -/
def U64 : Nat := 2 ^ 64

/-- Wrap-around subtraction of unsigned 64-bit values, as in the source
expression `queue.size() - buffer_size`. -/
def usub64 (a b : Nat) : Nat := (U64 + a % U64 - b % U64) % U64

/-- Mutable state of chan::channel: the queue (front at the head), the two
flags, the per-send overflow counter (none while still uninitialized) and
the fixed buffer size. -/
structure channel (α : Type) where
  queue : List α
  closed : Bool
  sealed : Bool
  dropped_count_ : Option Nat
  buffer_size : Nat
deriving DecidableEq

/-- Constructor `channel(unsigned int buffer_size = 1)`: initializes
`closed`, `sealed` and `buffer_size` but not `dropped_count_` (the member
initializer list on line 33 omits it), so the counter starts
indeterminate, modelled as `none`. -/
def channel.init (α : Type) (buffer_size : Nat) : channel α :=
  { queue := [], closed := false, sealed := false
    dropped_count_ := none, buffer_size := buffer_size }

/-- Accessor `is_closed()`. -/
def channel.is_closed (s : channel α) : Bool := s.closed

/-- Accessor `is_sealed()`. -/
def channel.is_sealed (s : channel α) : Bool := s.sealed

/-- Accessor `is_empty()`. -/
def channel.is_empty (s : channel α) : Bool := s.queue.isEmpty

/-- Accessor `is_full()`: false when `buffer_size == 0`, otherwise
`queue.size() >= buffer_size`. -/
def channel.is_full (s : channel α) : Bool :=
  if s.buffer_size = 0 then false else decide (s.buffer_size ≤ s.queue.length)

/-- Accessor `size()`. -/
def channel.size (s : channel α) : Nat := s.queue.length

/-- Accessor `dropped_count()`: reads the (possibly uninitialized)
member. -/
def channel.dropped_count (s : channel α) : Option Nat := s.dropped_count_

/-- Operation `close()`: no-op when already closed, otherwise sets the
closed flag (and broadcasts, which has no state effect). -/
def channel.close (s : channel α) : channel α :=
  if s.closed then s else { s with closed := true }

/-- Operation `seal()`: no-op when closed or sealed, otherwise sets the
sealed flag. -/
def channel.seal (s : channel α) : channel α :=
  if s.closed || s.sealed then s else { s with sealed := true }

/-- Loop `while (queue.size() > buffer_size) queue.pop();`: pops from the
front until the length is at most `cap`. -/
def drainToCap : List α → Nat → List α
  | [], _ => []
  | x :: xs, cap => if cap < xs.length + 1 then drainToCap xs cap else x :: xs

/-- Body of `send` after any wait has resolved (lines 95-112): reject when
closed or sealed; otherwise push at the tail, and when `buffer_size > 0`
compute `d = queue.size() - buffer_size` in size_t arithmetic and pop from
the front down to `buffer_size`; finally store `d` (0 when
`buffer_size == 0`) into `dropped_count_`. -/
def channel.sendCore (s : channel α) (m : α) : channel α × Bool :=
  if s.closed || s.sealed then (s, false)
  else
    let q1 := s.queue ++ [m]
    if 0 < s.buffer_size then
      let d := usub64 q1.length s.buffer_size
      ({ s with queue := drainToCap q1 s.buffer_size, dropped_count_ := some d }, true)
    else
      ({ s with queue := q1, dropped_count_ := some 0 }, true)

/-- Guard on line 91: the condition under which `send` enters `cv.wait`. -/
def channel.sendWaitGuard (wwf : Bool) (s : channel α) : Bool :=
  wwf && !s.closed && !s.sealed && decide (s.buffer_size ≤ s.queue.length)

/-- Wake predicate on line 92: the lambda passed to `cv.wait` in `send`. -/
def channel.sendWakePred (s : channel α) : Bool :=
  s.closed || s.sealed || decide (s.queue.length < s.buffer_size)

/-- Full `send<wait_while_full>` in a single-threaded run: when the wait
is entered while its predicate is false the call suspends forever
(`none`); otherwise it returns the result of the post-wait body. -/
def channel.send (s : channel α) (wwf : Bool) (m : α) : Option (channel α × Bool) :=
  if s.sendWaitGuard wwf && !s.sendWakePred then none else some (s.sendCore m)

/-- Body of `recv` after any wait has resolved (lines 129-151): fail when
closed; when sealed with an empty queue set the closed flag and fail;
when merely empty fail; otherwise pop the front message. -/
def channel.recvCore (s : channel α) : channel α × Option α :=
  if s.closed then (s, none)
  else if s.sealed && s.queue.isEmpty then ({ s with closed := true }, none)
  else
    match s.queue with
    | [] => (s, none)
    | x :: xs => ({ s with queue := xs }, some x)

/-- Guard on line 125: the condition under which `recv` enters `cv.wait`. -/
def channel.recvWaitGuard (w : Bool) (s : channel α) : Bool := !s.sealed && w

/-- Wake predicate on line 126: the lambda passed to `cv.wait` in `recv`. -/
def channel.recvWakePred (s : channel α) : Bool :=
  s.closed || !s.queue.isEmpty || (s.sealed && s.queue.isEmpty)

/-- Full `recv<wait>` in a single-threaded run: when the wait is entered
while its predicate is false the call suspends forever (`none`);
otherwise it returns the result of the post-wait body. -/
def channel.recv (s : channel α) (w : Bool) : Option (channel α × Option α) :=
  if s.recvWaitGuard w && !s.recvWakePred then none else some s.recvCore

/-- Iterate the post-wait receive body `k` times, collecting results. -/
def channel.recvN (s : channel α) : Nat → channel α × List (Option α)
  | 0 => (s, [])
  | k + 1 =>
    let p := s.recvCore
    let r := p.1.recvN k
    (r.1, p.2 :: r.2)

/-- Send every message in the list in order, collecting results. -/
def channel.sendAll (s : channel α) : List α → channel α × List Bool
  | [] => (s, [])
  | m :: ms =>
    let p := s.sendCore m
    let r := p.1.sendAll ms
    (r.1, p.2 :: r.2)

/-- One channel operation, for reachability statements. -/
inductive Op (α : Type) where
  | osend (wwf : Bool) (m : α)
  | orecv (w : Bool)
  | oclose
  | oseal

/-- One single-threaded step: a call whose wait would suspend forever
leaves the state unchanged (the blocked caller holds no lock and mutates
nothing); otherwise the operation's body runs. -/
def channel.step (s : channel α) : Op α → channel α
  | .osend wwf m =>
      if s.sendWaitGuard wwf && !s.sendWakePred then s else (s.sendCore m).1
  | .orecv w =>
      if s.recvWaitGuard w && !s.recvWakePred then s else s.recvCore.1
  | .oclose => s.close
  | .oseal => s.seal

/-- Run a list of operations from a state. -/
def channel.run (s : channel α) : List (Op α) → channel α
  | [] => s
  | o :: os => (s.step o).run os

/-! Helper lemmas about the drain loop. -/

theorem drainToCap_of_le (q : List α) (cap : Nat) (h : q.length ≤ cap) :
    drainToCap q cap = q := by
  cases q with
  | nil => rfl
  | cons x xs =>
    have hx : ¬ cap < xs.length + 1 := by simp at h; omega
    simp [drainToCap, hx]

theorem drainToCap_eq_drop (q : List α) (cap : Nat) :
    drainToCap q cap = q.drop (q.length - cap) := by
  induction q with
  | nil => simp [drainToCap]
  | cons x xs ih =>
    by_cases h : cap < xs.length + 1
    · have h1 : (x :: xs).length - cap = (xs.length - cap) + 1 := by simp; omega
      simp only [drainToCap, if_pos h, ih, h1, List.drop_succ_cons]
    · have h1 : (x :: xs).length - cap = 0 := by simp; omega
      simp only [drainToCap, if_neg h, h1, List.drop_zero]

theorem drainToCap_length_le (q : List α) (cap : Nat) :
    (drainToCap q cap).length ≤ cap := by
  induction q with
  | nil => simp [drainToCap]
  | cons x xs ih =>
    by_cases h : cap < xs.length + 1
    · simpa [drainToCap, h] using ih
    · simp [drainToCap, h]; omega

/-! Helper lemmas about the immutable parts of each operation. -/

theorem sendCore_fields (s : channel α) (m : α) :
    (s.sendCore m).1.closed = s.closed ∧ (s.sendCore m).1.sealed = s.sealed ∧
    (s.sendCore m).1.buffer_size = s.buffer_size := by
  unfold channel.sendCore
  split
  · exact ⟨rfl, rfl, rfl⟩
  · dsimp only
    split
    · exact ⟨rfl, rfl, rfl⟩
    · exact ⟨rfl, rfl, rfl⟩

theorem recvCore_fields (s : channel α) :
    (s.recvCore).1.sealed = s.sealed ∧ (s.recvCore).1.buffer_size = s.buffer_size ∧
    (s.recvCore).1.dropped_count_ = s.dropped_count_ := by
  unfold channel.recvCore
  split
  · exact ⟨rfl, rfl, rfl⟩
  · split
    · exact ⟨rfl, rfl, rfl⟩
    · split <;> exact ⟨rfl, rfl, rfl⟩

theorem recvCore_closed_mono (s : channel α) (h : s.closed = true) :
    (s.recvCore).1.closed = true := by
  simp [channel.recvCore, h]

theorem recvCore_len_le (s : channel α) :
    (s.recvCore).1.queue.length ≤ s.queue.length := by
  unfold channel.recvCore
  split
  · exact le_rfl
  · split
    · exact le_rfl
    · split
      · exact le_rfl
      · simp_all

theorem close_closed (s : channel α) : (s.close).closed = true := by
  by_cases h : s.closed <;> simp [channel.close, h]

theorem close_fields (s : channel α) :
    (s.close).sealed = s.sealed ∧ (s.close).queue = s.queue ∧
    (s.close).buffer_size = s.buffer_size ∧ (s.close).dropped_count_ = s.dropped_count_ := by
  by_cases h : s.closed <;> simp [channel.close, h]

theorem seal_fields (s : channel α) :
    (s.seal).closed = s.closed ∧ (s.seal).queue = s.queue ∧
    (s.seal).buffer_size = s.buffer_size ∧ (s.seal).dropped_count_ = s.dropped_count_ := by
  by_cases h : s.closed || s.sealed <;> simp [channel.seal, h]

theorem seal_sealed_mono (s : channel α) (h : s.sealed = true) : (s.seal).sealed = true := by
  simp [channel.seal, h]

/-! Helper lemmas about a single step and about runs. -/

theorem step_closed_mono (s : channel α) (o : Op α) (h : s.closed = true) :
    (s.step o).closed = true := by
  cases o with
  | osend wwf m =>
    simp only [channel.step]
    split
    · exact h
    · rw [(sendCore_fields s m).1]; exact h
  | orecv w =>
    simp only [channel.step]
    split
    · exact h
    · exact recvCore_closed_mono s h
  | oclose => simp only [channel.step]; exact close_closed s
  | oseal => simp only [channel.step]; rw [(seal_fields s).1]; exact h

theorem step_sealed_mono (s : channel α) (o : Op α) (h : s.sealed = true) :
    (s.step o).sealed = true := by
  cases o with
  | osend wwf m =>
    simp only [channel.step]
    split
    · exact h
    · rw [(sendCore_fields s m).2.1]; exact h
  | orecv w =>
    simp only [channel.step]
    split
    · exact h
    · rw [(recvCore_fields s).1]; exact h
  | oclose => simp only [channel.step]; rw [(close_fields s).1]; exact h
  | oseal => simp only [channel.step]; exact seal_sealed_mono s h

theorem step_buffer_size (s : channel α) (o : Op α) :
    (s.step o).buffer_size = s.buffer_size := by
  cases o with
  | osend wwf m =>
    simp only [channel.step]
    split
    · rfl
    · exact (sendCore_fields s m).2.2
  | orecv w =>
    simp only [channel.step]
    split
    · rfl
    · exact (recvCore_fields s).2.1
  | oclose => simp only [channel.step]; exact (close_fields s).2.2.1
  | oseal => simp only [channel.step]; exact (seal_fields s).2.2.1

theorem sendCore_len_le (s : channel α) (m : α) (h0 : 0 < s.buffer_size)
    (h : s.queue.length ≤ s.buffer_size) :
    (s.sendCore m).1.queue.length ≤ s.buffer_size := by
  by_cases hcs : (s.closed || s.sealed) = true
  · simpa [channel.sendCore, hcs] using h
  · have hcs' : (s.closed || s.sealed) = false := by simpa using hcs
    simpa [channel.sendCore, hcs', h0] using
      drainToCap_length_le (s.queue ++ [m]) s.buffer_size

theorem step_len_le (s : channel α) (o : Op α) (h0 : 0 < s.buffer_size)
    (h : s.queue.length ≤ s.buffer_size) :
    (s.step o).queue.length ≤ s.buffer_size := by
  cases o with
  | osend wwf m =>
    simp only [channel.step]
    split
    · exact h
    · exact sendCore_len_le s m h0 h
  | orecv w =>
    simp only [channel.step]
    split
    · exact h
    · exact le_trans (recvCore_len_le s) h
  | oclose => simp only [channel.step]; rw [(close_fields s).2.1]; exact h
  | oseal => simp only [channel.step]; rw [(seal_fields s).2.1]; exact h

theorem run_len_le (ops : List (Op α)) :
    ∀ s : channel α, 0 < s.buffer_size → s.queue.length ≤ s.buffer_size →
      (s.run ops).queue.length ≤ s.buffer_size := by
  induction ops with
  | nil => intro s _ h; exact h
  | cons o os ih =>
    intro s h0 h
    have hb := step_buffer_size s o
    have := ih (s.step o) (by rw [hb]; exact h0) (by rw [hb]; exact step_len_le s o h0 h)
    simpa [channel.run, hb] using this

theorem run_closed_mono (ops : List (Op α)) :
    ∀ s : channel α, s.closed = true → (s.run ops).closed = true := by
  induction ops with
  | nil => intro s h; exact h
  | cons o os ih =>
    intro s h
    exact ih (s.step o) (step_closed_mono s o h)

/-! Helper lemmas about draining the queue through repeated receives. -/

theorem recvCore_cons (s : channel α) (x : α) (xs : List α)
    (hc : s.closed = false) (hq : s.queue = x :: xs) :
    s.recvCore = ({ s with queue := xs }, some x) := by
  simp [channel.recvCore, hc, hq]

theorem recvN_take (k : Nat) :
    ∀ s : channel α, s.closed = false → k ≤ s.queue.length →
      s.recvN k = ({ s with queue := s.queue.drop k }, (s.queue.take k).map some) := by
  induction k with
  | zero =>
    intro s hc _
    simp only [channel.recvN, List.drop_zero, List.take_zero, List.map_nil]
  | succ n ih =>
    intro s hc hk
    cases hq : s.queue with
    | nil => rw [hq] at hk; simp at hk
    | cons x xs =>
      have hcore := recvCore_cons s x xs hc hq
      have hn : n ≤ xs.length := by rw [hq] at hk; simpa using hk
      have ihx := ih { s with queue := xs } (by simpa using hc) (by simpa using hn)
      simp only [channel.recvN, hcore, ihx, hq, List.drop_succ_cons, List.take_succ_cons,
        List.map_cons]

/-! Helper lemma: a sequence of sends that never overflows appends the
messages in order and succeeds throughout. -/

theorem sendAll_no_drop (ms : List α) :
    ∀ s : channel α, s.closed = false → s.sealed = false →
      (s.buffer_size = 0 ∨ s.queue.length + ms.length ≤ s.buffer_size) →
      (s.sendAll ms).1.queue = s.queue ++ ms ∧
      (s.sendAll ms).1.closed = false ∧
      (s.sendAll ms).1.sealed = false ∧
      (s.sendAll ms).1.buffer_size = s.buffer_size ∧
      (s.sendAll ms).2 = List.replicate ms.length true := by
  induction ms with
  | nil =>
    intro s hc hs _
    simp [channel.sendAll, hc, hs]
  | cons m ms ih =>
    intro s hc hs hcap
    have hne : (s.closed || s.sealed) = false := by simp [hc, hs]
    have hq1 : ∃ dc, s.sendCore m = ({ s with queue := s.queue ++ [m], dropped_count_ := dc }, true) := by
      rcases hcap with hb | hb
      · exact ⟨some 0, by simp [channel.sendCore, hne, hb]⟩
      · have hb0 : 0 < s.buffer_size := by simp at hb; omega
        have hlen : (s.queue ++ [m]).length ≤ s.buffer_size := by
          simp at hb ⊢; omega
        exact ⟨some (usub64 (s.queue ++ [m]).length s.buffer_size),
          by simp [channel.sendCore, hne, hb0, drainToCap_of_le _ _ hlen]⟩
    obtain ⟨dc, hsc⟩ := hq1
    have ihx := ih { s with queue := s.queue ++ [m], dropped_count_ := dc }
      (by simpa using hc) (by simpa using hs)
      (by
        rcases hcap with hb | hb
        · exact Or.inl hb
        · right; simp at hb ⊢; omega)
    simp only [channel.sendAll, hsc]
    refine ⟨?_, ihx.2.1, ihx.2.2.1, ?_, ?_⟩
    · rw [ihx.1]; simp
    · rw [ihx.2.2.2.1]
    · rw [ihx.2.2.2.2]; simp [List.replicate_succ]

/-! Helper lemmas about sealing and draining. -/

theorem seal_eq (s : channel α) (h1 : s.closed = false) (h2 : s.sealed = false) :
    s.seal = { s with sealed := true } := by
  simp [channel.seal, h1, h2]

theorem seal_drain_k (s : channel α) (k : Nat) (h1 : s.closed = false)
    (h2 : s.sealed = false) (hk : k ≤ s.queue.length) :
    (s.seal).recvN k =
      ({ s with sealed := true, queue := s.queue.drop k }, (s.queue.take k).map some) := by
  rw [seal_eq s h1 h2]
  exact recvN_take k { s with sealed := true } (by simpa using h1) (by simpa using hk)

theorem seal_drain (s : channel α) (h1 : s.closed = false) (h2 : s.sealed = false) :
    (s.seal).recvN s.queue.length =
      ({ s with sealed := true, queue := [] }, s.queue.map some) := by
  have := seal_drain_k s s.queue.length h1 h2 le_rfl
  simpa [List.drop_length, List.take_length] using this

/-! The claims. -/

/-- C1: the claim says a send into a full drop-policy channel evicts the
single oldest element and reports a dropped count of 1, and that any
non-overflowing send reports 0.  The second half fails on the code: on
line 100, `d = queue.size() - buffer_size` is computed in unsigned size_t
arithmetic after the push but before any pop, so a send whose resulting
length is strictly below the capacity underflows.  At the failing input
(capacity 2, open empty channel, one send) the send succeeds, nothing is
evicted, and the counter stores (1 - 2) mod 2^64 = 2^64 - 1 rather than
the 0 the claim requires. -/
theorem C1_dropped_count_underflow :
    ((channel.init Nat 2).sendCore 7).2 = true ∧
    ((channel.init Nat 2).sendCore 7).1.queue = [7] ∧
    ((channel.init Nat 2).sendCore 7).1.dropped_count = some (U64 - 1) ∧
    U64 - 1 ≠ 0 := by
  refine ⟨rfl, rfl, rfl, by decide⟩

/-- C2: the claim says capacity 0 disables the blocking-while-full wait,
so a send to an Open channel never suspends and always succeeds.  On the
code this fails: with `buffer_size == 0` the guard on line 91,
`queue.size() >= buffer_size`, is always true, so a `send<true>` on an
open channel enters `cv.wait`, and the wake predicate on line 92
(`closed || sealed || queue.size() < buffer_size`) is false in every open
state, so in a single-threaded run the call suspends forever (`none`)
instead of succeeding.  The theorem evaluates the code at the failing
input: a freshly constructed capacity-0 channel. -/
theorem C2_capacity0_send_blocks :
    (channel.init Nat 0).sendWaitGuard true = true ∧
    (channel.init Nat 0).sendWakePred = false ∧
    (channel.init Nat 0).send true 5 = none := by
  refine ⟨rfl, rfl, rfl⟩

/-- C3: after `seal()` on an Open channel holding n queued messages, the
next n receives succeed and return exactly those messages in FIFO order,
`is_closed()` stays false through the n-th receive, and the (n+1)-th
receive finds the channel sealed and empty, performs the automatic
Sealed-to-Closed transition, and fails.  (With the channel sealed the
waiting receive never enters `cv.wait` — line 125 — so `recvCore` is the
whole call.) -/
theorem C3_seal_drain_close (s : channel Nat) (h1 : s.closed = false)
    (h2 : s.sealed = false) :
    ((s.seal).recvN s.queue.length).2 = s.queue.map some ∧
    (∀ k, k ≤ s.queue.length → ((s.seal).recvN k).1.is_closed = false) ∧
    ((s.seal).recvN s.queue.length).1.queue = [] ∧
    (((s.seal).recvN s.queue.length).1.recvCore).2 = none ∧
    (((s.seal).recvN s.queue.length).1.recvCore).1.is_closed = true := by
  have hd := seal_drain s h1 h2
  refine ⟨?_, ?_, ?_, ?_, ?_⟩
  · rw [hd]
  · intro k hk
    rw [seal_drain_k s k h1 h2 hk]
    simpa [channel.is_closed] using h1
  · rw [hd]
  · rw [hd]; simp [channel.recvCore, h1]
  · rw [hd]; simp [channel.recvCore, channel.is_closed, h1]

/-- Witness for C3 at a concrete input: a sealed channel holding 1, 2
drains them in order. -/
theorem C3_witness :
    (((⟨[1, 2], false, false, none, 4⟩ : channel Nat).seal).recvN 2).2 =
      [some 1, some 2] := by
  have h := C3_seal_drain_close ⟨[1, 2], false, false, none, 4⟩ rfl rfl
  simpa using h.1

/-- C4: once the closed flag is set, every receive — waiting or polling —
returns failure without touching the queue (line 129 fires before any
drain), and every send — blocking or not — returns false without touching
anything (the wait guard on line 91 is false once closed, and line 95
rejects).  The returned state is the argument state itself, so queue,
flags and counter are all unmodified. -/
theorem C4_closed_rejects (s : channel Nat) (m : Nat) (w wwf : Bool)
    (h : s.closed = true) :
    s.recv w = some (s, none) ∧ s.send wwf m = some (s, false) := by
  constructor
  · have hpred : s.recvWakePred = true := by simp [channel.recvWakePred, h]
    simp [channel.recv, hpred, channel.recvCore, h]
  · have hguard : s.sendWaitGuard wwf = false := by simp [channel.sendWaitGuard, h]
    simp [channel.send, hguard, channel.sendCore, h]

/-- Witness for C4 at a concrete input: a closed channel still holding a
message rejects both a waiting receive and a blocking send. -/
theorem C4_witness :
    (⟨[3], true, false, some 0, 1⟩ : channel Nat).recv true =
      some (⟨[3], true, false, some 0, 1⟩, none) ∧
    (⟨[3], true, false, some 0, 1⟩ : channel Nat).send true 9 =
      some (⟨[3], true, false, some 0, 1⟩, false) :=
  C4_closed_rejects ⟨[3], true, false, some 0, 1⟩ 9 true true rfl

/-- C5: with capacity c > 0, every state reachable by any sequence of
operations from a freshly constructed channel has queue length at most c;
in particular the bound holds immediately after every send returns, since
the post-send state is itself reachable. -/
theorem C5_capacity_invariant (c : Nat) (hc : 0 < c) (ops : List (Op Nat)) :
    ((channel.init Nat c).run ops).queue.length ≤ c := by
  have := run_len_le ops (channel.init Nat c) (by simpa [channel.init] using hc)
    (by simp [channel.init])
  simpa [channel.init] using this

/-- Witness for C5 at a concrete input: two sends into a capacity-1
channel leave at most one queued element. -/
theorem C5_witness :
    ((channel.init Nat 1).run [Op.osend false 3, Op.osend false 4]).queue.length ≤ 1 :=
  C5_capacity_invariant 1 (by decide) [Op.osend false 3, Op.osend false 4]

/-- C6: a sequence of sends into a fresh channel with no overflow
eviction (capacity 0, or no more messages than the capacity, which from
an empty queue is exactly the no-eviction condition) all succeed, leave
the queue holding the messages in insertion order, and the following
receives return exactly those messages in that order. -/
theorem C6_fifo_order (c : Nat) (ms : List Nat) (h : c = 0 ∨ ms.length ≤ c) :
    ((channel.init Nat c).sendAll ms).2 = List.replicate ms.length true ∧
    ((channel.init Nat c).sendAll ms).1.queue = ms ∧
    (((channel.init Nat c).sendAll ms).1.recvN ms.length).2 = ms.map some := by
  have hcap : (channel.init Nat c).buffer_size = 0 ∨
      (channel.init Nat c).queue.length + ms.length ≤ (channel.init Nat c).buffer_size := by
    simpa [channel.init] using h
  have hs := sendAll_no_drop ms (channel.init Nat c) rfl rfl hcap
  have hq : ((channel.init Nat c).sendAll ms).1.queue = ms := by
    simpa [channel.init] using hs.1
  refine ⟨hs.2.2.2.2, hq, ?_⟩
  have hlen : ms.length ≤ ((channel.init Nat c).sendAll ms).1.queue.length := by
    simp [hq]
  have ht := recvN_take ms.length ((channel.init Nat c).sendAll ms).1 hs.2.1 hlen
  rw [ht, hq]
  simp

/-- Witness for C6 at a concrete input: capacity 2, sends of 4 then 5,
receives return 4 then 5. -/
theorem C6_witness :
    (((channel.init Nat 2).sendAll [4, 5]).1.recvN 2).2 = [some 4, some 5] := by
  have h := C6_fifo_order 2 [4, 5] (Or.inr (by decide))
  simpa using h.2.2

/-- C7: the claim says a freshly constructed channel reports a dropped
count of 0 because the counter is given a defined initial value at
construction.  The code gives it none: the member initializer list on
line 33 initializes `closed`, `sealed` and `buffer_size` but leaves
`dropped_count_` uninitialized, so `dropped_count()` on a fresh channel
reads an indeterminate value (modelled as `none`), not a defined 0. -/
theorem C7_dropped_count_uninitialized :
    (channel.init Nat 1).dropped_count = none ∧ (none : Option Nat) ≠ some 0 :=
  ⟨rfl, by decide⟩

/-- C8: the post-wait body of `send` returns false exactly when the state
is sealed or closed at that check, a rejected send returns the argument
state unchanged (queue, flags and counter all untouched), and a
successful send appends exactly its message at the tail — the resulting
queue is the old queue plus the message at the end, minus some number of
elements evicted from the head, so its last element is the message. -/
theorem C8_send_contract (s : channel Nat) (m : Nat) :
    ((s.sendCore m).2 = false ↔ (s.closed = true ∨ s.sealed = true)) ∧
    ((s.sendCore m).2 = false → (s.sendCore m).1 = s) ∧
    ((s.sendCore m).2 = true →
      (s.sendCore m).1.queue.getLast? = some m ∧
      ∃ j, j ≤ s.queue.length ∧ (s.sendCore m).1.queue = (s.queue ++ [m]).drop j) := by
  by_cases hcs : (s.closed || s.sealed) = true
  · have hres : s.sendCore m = (s, false) := by simp [channel.sendCore, hcs]
    rw [hres]
    exact ⟨⟨fun _ => by simpa using hcs, fun _ => rfl⟩, fun _ => rfl, fun ht => by simp at ht⟩
  · have hcs' : (s.closed || s.sealed) = false := by simpa using hcs
    by_cases hb : 0 < s.buffer_size
    · have hres : s.sendCore m =
          ({ s with
              queue := (s.queue ++ [m]).drop ((s.queue ++ [m]).length - s.buffer_size),
              dropped_count_ := some (usub64 (s.queue ++ [m]).length s.buffer_size) }, true) := by
        simp [channel.sendCore, hcs', hb, drainToCap_eq_drop]
      rw [hres]
      refine ⟨⟨fun ht => by simp at ht, fun hx => ?_⟩, fun ht => by simp at ht, fun _ => ?_⟩
      · rcases hx with hx | hx <;> simp [hx] at hcs'
      · have hj : (s.queue ++ [m]).length - s.buffer_size ≤ s.queue.length := by
          simp; omega
        refine ⟨?_, _, hj, rfl⟩
        rw [List.drop_append_of_le_length hj]
        exact List.getLast?_concat _
    · have hres : s.sendCore m =
          ({ s with queue := s.queue ++ [m], dropped_count_ := some 0 }, true) := by
        simp [channel.sendCore, hcs', hb]
      rw [hres]
      refine ⟨⟨fun ht => by simp at ht, fun hx => ?_⟩, fun ht => by simp at ht, fun _ => ?_⟩
      · rcases hx with hx | hx <;> simp [hx] at hcs'
      · exact ⟨List.getLast?_concat _, 0, by simp, by simp⟩

/-- Witness for C8 at a concrete input: a successful send into a full
capacity-1 channel puts its message at the tail. -/
theorem C8_witness :
    ((⟨[9], false, false, none, 1⟩ : channel Nat).sendCore 7).1.queue.getLast? = some 7 := by
  have h := C8_send_contract ⟨[9], false, false, none, 1⟩ 7
  exact (h.2.2 rfl).1

/-- C9: across every operation (a send or receive in either policy
variant, close, or seal — the introspection accessors read the state
without modifying it), the closed flag and the sealed flag never go back
from true to false, so the state only advances along
Open to Sealed to Closed or Open to Closed. -/
theorem C9_state_monotone (s : channel Nat) (o : Op Nat) :
    (s.closed = true → (s.step o).closed = true) ∧
    (s.sealed = true → (s.step o).sealed = true) :=
  ⟨step_closed_mono s o, step_sealed_mono s o⟩

/-- Witness for C9 at a concrete input: a receive on a closed-and-sealed
channel leaves both flags set. -/
theorem C9_witness :
    ((⟨[], true, true, none, 1⟩ : channel Nat).step (Op.orecv true)).closed = true ∧
    ((⟨[], true, true, none, 1⟩ : channel Nat).step (Op.orecv true)).sealed = true :=
  ⟨(C9_state_monotone ⟨[], true, true, none, 1⟩ (Op.orecv true)).1 rfl,
   (C9_state_monotone ⟨[], true, true, none, 1⟩ (Op.orecv true)).2 rfl⟩

/-- C10: close and seal are idempotent — a second close after a close,
a second seal after a seal, and a seal after a close each change nothing
(lines 44 and 59 return early); a close on an already-closed channel and
a seal on an already-sealed-or-closed channel return the state fully
unchanged; and a seal after a close never sets the sealed flag. -/
theorem C10_close_seal_idempotent (s : channel Nat) :
    (s.close).close = s.close ∧ (s.seal).seal = s.seal ∧ (s.close).seal = s.close ∧
    (s.closed = true → s.close = s) ∧
    ((s.closed = true ∨ s.sealed = true) → s.seal = s) ∧
    ((s.close).seal).sealed = s.sealed := by
  by_cases h1 : s.closed <;> by_cases h2 : s.sealed <;>
    simp [channel.close, channel.seal, h1, h2]

/-- Witness for C10 at a concrete input: closing an already-closed
channel changes nothing. -/
theorem C10_witness :
    (⟨[], true, false, none, 1⟩ : channel Nat).close = ⟨[], true, false, none, 1⟩ :=
  (C10_close_seal_idempotent ⟨[], true, false, none, 1⟩).2.2.2.1 rfl

end ChanModel
